import Mathlib

/-!
Verification of the note entity of `anki/notes.py` (libanki).

The Python source is shallowly embedded: the `Note` class becomes a
structure plus explicit state passing through a `Deck` record; SQL tables
(`notes`, `cards`, `nsums`) become lists of rows; external collaborators
from `anki.utils`, `anki.models`, `anki.tags` and the deck object
(checksum, HTML stripping, the tag service, cloze template matching,
card generation) are modelled from the specification's collaborator
contracts as function fields of `Deck` or as request logs.  Fallible
Python paths (uncaught exceptions, `assert`, `KeyError`) are modelled with
`Except NoteError`.
-/

set_option autoImplicit false

namespace Anki

/-- Error taxonomy of the spec (§7).  The Python code signals these as an
uncaught `TypeError` from unpacking `None` (load of a missing id), a
`KeyError` (unknown field name), a bare `Exception` (cloze pre-flush
contract breach), and an `AssertionError` (constructor misuse). -/
inductive NoteError where
  | notFound
  | unknownField
  | invariantViolation
  | assertionError
  | modelMissing
  deriving Repr, DecidableEq

/-- Modelled from the spec: the Field Codec's reserved separator
(`anki.utils` uses the unit-separator character `\x1f`). -/
def fieldSep : Char := Char.ofNat 31

/-- Modelled from the spec: `joinFields` of `anki.utils` — concatenates the
field list with the reserved separator. -/
def joinFields (fs : List String) : String :=
  String.intercalate (String.singleton fieldSep) fs

/-- Splitting a character list at every occurrence of the reserved
separator (Python `str.split` semantics for a one-character separator:
the empty string yields `[""]`). -/
def splitFieldsList : List Char → List String
  | [] => [""]
  | c :: cs =>
    if c = fieldSep then "" :: splitFieldsList cs
    else
      match splitFieldsList cs with
      | [] => [String.singleton c]
      | t :: ts => (String.singleton c ++ t) :: ts

/-- Modelled from the spec: `splitFields` of `anki.utils` — inverse of
`joinFields`. -/
def splitFields (s : String) : List String :=
  splitFieldsList s.data

/-- One field definition of a model: name plus the `uniq`/`req`
configuration flags read by `notes.py`. -/
structure FieldConf where
  name : String
  uniq : Bool
  req : Bool
  deriving Repr, DecidableEq

/-- A template set ("model"): the attributes of the model dict that
`notes.py` reads (`id`, `gid`, `cloze`, `sortf`, `flds`). -/
structure Model where
  id : Nat
  gid : Nat
  cloze : Bool
  sortf : Nat
  flds : List FieldConf
  deriving Repr, DecidableEq

/-- A persisted row of the `notes` table:
`(id, guid, mid, gid, mod, usn, tags, flds, sfld, flags, data)`. -/
structure NoteRec where
  id : Nat
  guid : String
  mid : Nat
  gid : Nat
  mod : Nat
  usn : Int
  tags : String
  flds : String
  sfld : String
  flags : Nat
  data : String
  deriving Repr, DecidableEq

/-- A row of the `cards` table, restricted to the columns `notes.py`
queries (`id`, `nid`, `ord`). -/
structure CardRec where
  id : Nat
  nid : Nat
  ord : Nat
  deriving Repr, DecidableEq

/-- A row of the uniqueness index `nsums`: `(nid, mid, csum)`. -/
structure NsumRow where
  nid : Nat
  mid : Nat
  csum : Nat
  deriving Repr, DecidableEq

/-- The deck/collection container together with the external collaborators
`notes.py` reaches through it.  The function fields are modelled from the
spec's collaborator contracts (§6): `csum` is `fieldChecksum`,
`stripHTML` the markup stripper, `tagSplit`/`tagJoin`/`tagCanonify` the
tag service, `findTemplates` the cloze template matcher returning the
ordinals referenced by the note's field content.  `genCardsRequests` and
`registeredTags` log the outbound `genCards` / `tags.register` calls. -/
structure Deck where
  notes : List NoteRec
  cards : List CardRec
  nsums : List NsumRow
  models : List Model
  time : Nat
  usnCounter : Int
  nextId : Nat
  nextGuid : String
  csum : String → Nat
  stripHTML : String → String
  tagSplit : String → List String
  tagJoin : List String → String
  tagCanonify : List String → List String
  findTemplates : List String → List Nat
  genCardsRequests : List (List Nat)
  registeredTags : List (List String)

/-- `deck.models.get(mid)`: look up a model by id. -/
def Deck.modelsGet (d : Deck) (mid : Nat) : Option Model :=
  d.models.find? (fun m => m.id == mid)

/-- The in-memory note object.  `newlyAdded` is the transient flag set by
the cloze pre-flush hook; `model` caches `_model`. -/
structure Note where
  id : Nat
  guid : String
  mid : Nat
  gid : Nat
  mod : Nat
  usn : Int
  tags : List String
  fields : List String
  flags : Nat
  data : String
  model : Model
  newlyAdded : Bool

/-- Helper enumerating field definitions with their ordinals, starting
at `i`. -/
def fmapAux (i : Nat) : List FieldConf → List (String × Nat × FieldConf)
  | [] => []
  | f :: fs => (f.name, i, f) :: fmapAux (i + 1) fs

/-- Modelled from the spec: `deck.models.fieldMap(model)` of `anki.models`
— the field-name → (ordinal, config) mapping, in field order. -/
def fieldMap (m : Model) : List (String × Nat × FieldConf) :=
  fmapAux 0 m.flds

/-- Dictionary lookup in the field map (`self._fmap[key]`). -/
def fmapLookup (fm : List (String × Nat × FieldConf)) (key : String) :
    Option (Nat × FieldConf) :=
  (fm.find? (fun e => e.1 == key)).map (fun e => e.2)

/-- `Note.load`: reconstruct a note from storage by id.  `db.first`
returning no row (Python unpacks `None`, raising) is the spec's
`NotFound`; a missing model would make Python's `fieldMap` call fail. -/
def Note.load (d : Deck) (id : Nat) : Except NoteError Note :=
  match d.notes.find? (fun r => r.id == id) with
  | none => .error .notFound
  | some r =>
    match d.modelsGet r.mid with
    | none => .error .modelMissing
    | some m =>
      .ok { id := id, guid := r.guid, mid := r.mid, gid := r.gid,
            mod := r.mod, usn := r.usn,
            tags := d.tagSplit r.tags, fields := splitFields r.flds,
            flags := r.flags, data := r.data, model := m,
            newlyAdded := false }

/-- Python truthiness of the `id` argument: `None` and `0` are falsy. -/
def idTruthy : Option Nat → Bool
  | none => false
  | some v => v != 0

/-- `Note.__init__(deck, model=None, id=None)`: `assert not (model and
id)`, then either the load path (truthy `id`) or the fresh-creation path
(which dereferences `model`, so `model=None` there fails). -/
def Note.init (d : Deck) (model : Option Model) (id : Option Nat) :
    Except NoteError Note :=
  if model.isSome && idTruthy id then .error .assertionError
  else if idTruthy id then Note.load d (id.getD 0)
  else
    match model with
    | none => .error .modelMissing
    | some m =>
      .ok { id := d.nextId, guid := d.nextGuid, mid := m.id, gid := m.gid,
            mod := 0, usn := 0, tags := [],
            fields := List.replicate m.flds.length "",
            flags := 0, data := "", model := m, newlyAdded := false }

/-- `Note._fieldOrd` / the `_fmap[key]` lookup: `KeyError` on an unknown
name is the spec's `UnknownField`. -/
def Note.fieldOrd (n : Note) (key : String) :
    Except NoteError (Nat × FieldConf) :=
  match fmapLookup (fieldMap n.model) key with
  | none => .error .unknownField
  | some x => .ok x

/-- `Note.__getitem__`: read the field at the name's positional slot. -/
def Note.getItem (n : Note) (key : String) : Except NoteError String :=
  (n.fieldOrd key).map (fun oc => n.fields.getD oc.1 "")

/-- `Note.__setitem__`: write the field at the name's positional slot. -/
def Note.setItem (n : Note) (key : String) (v : String) :
    Except NoteError Note :=
  (n.fieldOrd key).map (fun oc => { n with fields := n.fields.set oc.1 v })

/-- Python `list.remove`: drop the first occurrence (the caller below
only removes elements known to be present). -/
def listRemoveFirst : List String → String → List String
  | [], _ => []
  | t :: ts, r => if t == r then ts else t :: listRemoveFirst ts r

/-- `Note.delTag`: collect every tag matching case-insensitively, then
remove each collected element in turn. -/
def Note.delTag (n : Note) (tag : String) : Note :=
  let rem := n.tags.filter (fun t => t.toLower == tag.toLower)
  { n with tags := rem.foldl (fun ts r => listRemoveFirst ts r) n.tags }

/-- `Note.addTag`: append; duplicates are stripped on save. -/
def Note.addTag (n : Note) (tag : String) : Note :=
  { n with tags := n.tags ++ [tag] }

/-- `Note.stringTags`: canonify then join via the tag service. -/
def Note.stringTags (d : Deck) (n : Note) : String :=
  d.tagJoin (d.tagCanonify n.tags)

/-- Body of `Note.fieldUnique` once the field map entry `(ord, conf)` is
in hand.  Mirrors the source: non-unique or empty fields are vacuously
unique; otherwise the `nsums` index is queried for other notes of the
same `mid` sharing the checksum (the source also computes an unused `lim`
clause here, with no effect on the query), and each candidate's stored
field blob is split and compared exactly at position `ord`. -/
def fieldUniqueAt (d : Deck) (n : Note) (ord : Nat) (conf : FieldConf) :
    Bool :=
  if !conf.uniq then true
  else
    let val := n.fields.getD ord ""
    if val == "" then true
    else
      let c := d.csum val
      let nids := (d.nsums.filter
        (fun r => r.csum == c && r.nid != n.id && r.mid == n.mid)).map
        (fun r => r.nid)
      if nids.isEmpty then true
      else
        let cands := d.notes.filter (fun r => nids.contains r.id)
        !(cands.any (fun r => (splitFields r.flds).getD ord "" == val))

/-- `Note.fieldUnique(name)`. -/
def Note.fieldUnique (d : Deck) (n : Note) (name : String) :
    Except NoteError Bool :=
  (n.fieldOrd name).map (fun oc => fieldUniqueAt d n oc.1 oc.2)

/-- Body of `Note.fieldComplete`: the source returns the field value
itself, whose truthiness (non-emptiness) the caller tests. -/
def fieldCompleteAt (n : Note) (ord : Nat) (conf : FieldConf) : Bool :=
  if !conf.req then true else n.fields.getD ord "" != ""

/-- `Note.fieldComplete(name)`. -/
def Note.fieldComplete (n : Note) (name : String) :
    Except NoteError Bool :=
  (n.fieldOrd name).map (fun oc => fieldCompleteAt n oc.1 oc.2)

/-- Insertion into an ordinal-sorted list, for the `sorted(d)` call of
`Note.problems` (ordinals are distinct, so the key order decides). -/
def insertByOrd (x : Nat × Option String) :
    List (Nat × Option String) → List (Nat × Option String)
  | [] => [x]
  | y :: ys => if x.1 ≤ y.1 then x :: y :: ys else y :: insertByOrd x ys

/-- `sorted` on the `(ord, verdict)` pairs built by `Note.problems`. -/
def sortByOrd (l : List (Nat × Option String)) :
    List (Nat × Option String) :=
  l.foldr insertByOrd []

/-- `Note.problems`: one `(ord, verdict)` pair per field-map entry —
"unique" beats "required" beats no problem — sorted by ordinal, keeping
the verdicts. -/
def Note.problems (d : Deck) (n : Note) : List (Option String) :=
  let entries := (fieldMap n.model).map (fun e =>
    (e.2.1,
      if !(fieldUniqueAt d n e.2.1 e.2.2) then some "unique"
      else if !(fieldCompleteAt n e.2.1 e.2.2) then some "required"
      else none))
  (sortByOrd entries).map (fun x => x.2)

/-- The fresh `nsums` rows `Note.updateFieldChecksums` inserts: one per
unique-configured field whose value is non-empty. -/
def checksumRows (d : Deck) (n : Note) : List NsumRow :=
  (fieldMap n.model).filterMap (fun e =>
    if !e.2.2.uniq then none
    else
      let val := n.fields.getD e.2.1 ""
      if val == "" then none
      else some ⟨n.id, n.mid, d.csum val⟩)

/-- `Note.updateFieldChecksums`: delete every `nsums` row of this note,
then insert the fresh rows. -/
def Note.updateFieldChecksums (d : Deck) (n : Note) : Deck :=
  { d with nsums := d.nsums.filter (fun r => r.nid != n.id)
                      ++ checksumRows d n }

/-- `Note._clozePreFlush`: record whether the note has no cards yet
(`newlyAdded`), then abort with the spec's `InvariantViolation` if some
existing card's ordinal is no longer among the ordinals the note's
content references (`Exception("UI should have deleted cloze")`). -/
def clozePreFlush (d : Deck) (n : Note) : Except NoteError Note :=
  let newlyAdded := !(d.cards.any (fun c => c.nid == n.id))
  let ok := d.findTemplates n.fields
  if d.cards.any (fun c => c.nid == n.id && !(ok.contains c.ord)) then
    .error .invariantViolation
  else
    .ok { n with newlyAdded := newlyAdded }

/-- The write portion of `Note.flush` after a successful pre-flush hook:
stamp `mod`/`usn`, compute the sort field, insert-or-replace the `notes`
row, rebuild the uniqueness index, register the tags, and run the cloze
post-flush hook (`Note._clozePostFlush`: `genCards` only when the note
was not newly added). -/
def flushWrite (d : Deck) (n1 : Note) (mod : Nat) : Deck × Note :=
  let modv := if mod != 0 then mod else d.time
  let usnv := d.usnCounter
  let n2 := { n1 with mod := modv, usn := usnv }
  let sfld := d.stripHTML (n2.fields.getD n2.model.sortf "")
  let tagsStr := d.tagJoin (d.tagCanonify n2.tags)
  let row : NoteRec :=
    ⟨n2.id, n2.guid, n2.mid, n2.gid, modv, usnv, tagsStr,
     joinFields n2.fields, sfld, n2.flags, n2.data⟩
  let d1 := { d with notes := d.notes.filter (fun r => r.id != n2.id)
                       ++ [row] }
  let d2 := Note.updateFieldChecksums d1 n2
  let d3 := { d2 with registeredTags := d2.registeredTags ++ [n2.tags] }
  if n2.model.cloze && !n2.newlyAdded then
    ({ d3 with genCardsRequests := d3.genCardsRequests ++ [[n2.id]] }, n2)
  else (d3, n2)

/-- `Note.flush(mod=None)`: the cloze pre-flush hook can abort the whole
write; otherwise the write runs.  `mod = 0` stands for the falsy Python
default. -/
def Note.flush (d : Deck) (n : Note) (mod : Nat) :
    Except NoteError (Deck × Note) :=
  match (if n.model.cloze then clozePreFlush d n else .ok n) with
  | .error e => .error e
  | .ok n1 => .ok (flushWrite d n1 mod)

/-! ### Concrete fixtures used by witnesses and counterexamples -/

/-- A cloze-typed model with one field. -/
def modelCloze : Model := ⟨1, 10, true, 0, [⟨"Text", false, true⟩]⟩

/-- A plain model with a unique+required first field. -/
def modelBasic : Model :=
  ⟨2, 20, false, 0, [⟨"Front", true, true⟩, ⟨"Back", false, false⟩]⟩

/-- A small concrete deck with toy collaborator functions. -/
def baseDeck : Deck :=
  { notes := [], cards := [], nsums := [],
    models := [modelCloze, modelBasic],
    time := 100, usnCounter := 7, nextId := 42, nextGuid := "guid42",
    csum := fun s => s.length,
    stripHTML := fun s => s,
    tagSplit := fun s => if s == "" then [] else s.splitOn " ",
    tagJoin := fun ts => String.intercalate " " ts,
    tagCanonify := fun ts => ts,
    findTemplates := fun _ => [0],
    genCardsRequests := [], registeredTags := [] }

/-- An in-memory cloze note (id 5). -/
def noteCloze : Note :=
  { id := 5, guid := "g5", mid := 1, gid := 10, mod := 0, usn := 0,
    tags := [], fields := ["c1 text"], flags := 0, data := "",
    model := modelCloze, newlyAdded := false }

/-- An in-memory plain note (id 6). -/
def noteBasic : Note :=
  { id := 6, guid := "g6", mid := 2, gid := 20, mod := 0, usn := 0,
    tags := ["a"], fields := ["hello", "world"], flags := 0, data := "",
    model := modelBasic, newlyAdded := false }

/-- `baseDeck` with one card for note 5 whose ordinal 0 is still
referenced. -/
def deckWithCard : Deck := { baseDeck with cards := [⟨100, 5, 0⟩] }

/-- `baseDeck` with one card for note 5 whose ordinal 3 is no longer
referenced (`findTemplates` yields `[0]`). -/
def deckStale : Deck := { baseDeck with cards := [⟨101, 5, 3⟩] }

/-- A persisted note row (id 7, model 2) whose first field is "hello". -/
def recOther : NoteRec :=
  ⟨7, "g7", 2, 20, 1, 1, "", joinFields ["hello", "x"], "hello", 0, ""⟩

/-- `baseDeck` with `recOther` persisted and its uniqueness-index row. -/
def deckDup : Deck :=
  { baseDeck with notes := [recOther], nsums := [⟨7, 2, 5⟩] }

/-! ### Helper lemmas -/

theorem flushWrite_snd (d : Deck) (n1 : Note) (mod : Nat) :
    (flushWrite d n1 mod).2 =
      { n1 with mod := if mod != 0 then mod else d.time,
                usn := d.usnCounter } := by
  unfold flushWrite
  dsimp only
  split <;> rfl

theorem flushWrite_fst_gen (d : Deck) (n1 : Note) (mod : Nat) :
    (flushWrite d n1 mod).1.genCardsRequests =
      if n1.model.cloze && !n1.newlyAdded then
        d.genCardsRequests ++ [[n1.id]]
      else d.genCardsRequests := by
  unfold flushWrite Note.updateFieldChecksums
  dsimp only
  split <;> rfl

theorem clozePreFlush_ok (d : Deck) (n n1 : Note)
    (h : clozePreFlush d n = .ok n1) :
    n1 = { n with newlyAdded := !(d.cards.any (fun c => c.nid == n.id)) }
    := by
  unfold clozePreFlush at h
  dsimp only at h
  split at h
  · cases h
  · cases h
    rfl

theorem flush_ok_elim (d : Deck) (n : Note) (mod : Nat) (d' : Deck)
    (n' : Note) (h : Note.flush d n mod = .ok (d', n')) :
    ∃ n1, (if n.model.cloze then clozePreFlush d n else .ok n) = .ok n1 ∧
      d' = (flushWrite d n1 mod).1 ∧ n' = (flushWrite d n1 mod).2 := by
  unfold Note.flush at h
  cases hpre : (if n.model.cloze then clozePreFlush d n else .ok n) with
  | error e => rw [hpre] at h; cases h
  | ok n1 =>
    rw [hpre] at h
    injection h with h2
    exact ⟨n1, rfl, (congrArg Prod.fst h2).symm, (congrArg Prod.snd h2).symm⟩

theorem listRemoveFirst_keep (a : String) (ts : List String) (r : String)
    (h : (a == r) = false) :
    listRemoveFirst (a :: ts) r = a :: listRemoveFirst ts r := by
  simp [listRemoveFirst, h]

theorem foldl_remove_cons (a : String) (rs : List String)
    (h : ∀ r ∈ rs, (r == a) = false) (ts : List String) :
    rs.foldl (fun l r => listRemoveFirst l r) (a :: ts) =
      a :: rs.foldl (fun l r => listRemoveFirst l r) ts := by
  induction rs generalizing ts with
  | nil => rfl
  | cons r rs ih =>
    have hr : (r == a) = false := h r (by simp)
    have ha : (a == r) = false := by
      rw [beq_eq_false_iff_ne] at hr ⊢
      exact fun e => hr e.symm
    simp only [List.foldl_cons]
    rw [show listRemoveFirst (a :: ts) r = a :: listRemoveFirst ts r from
      listRemoveFirst_keep a ts r ha]
    exact ih (fun x hx => h x (List.mem_cons_of_mem r hx))
      (listRemoveFirst ts r)

theorem foldl_remove_filter (p : String → Bool) (ts : List String) :
    (ts.filter p).foldl (fun l r => listRemoveFirst l r) ts =
      ts.filter (fun t => !(p t)) := by
  induction ts with
  | nil => rfl
  | cons a ts ih =>
    cases hp : p a with
    | true =>
      rw [List.filter_cons_of_pos hp, List.filter_cons_of_neg (by simp [hp])]
      simp only [List.foldl_cons]
      rw [show listRemoveFirst (a :: ts) a = ts by simp [listRemoveFirst]]
      exact ih
    | false =>
      rw [List.filter_cons_of_neg (by simp [hp]),
        List.filter_cons_of_pos (by simp [hp])]
      rw [foldl_remove_cons a (ts.filter p) ?_ ts, ih]
      intro r hr
      have hpr : p r = true := List.of_mem_filter hr
      rw [beq_eq_false_iff_ne]
      intro e
      rw [e] at hpr
      exact absurd hpr (by simp [hp])

/-- C8: `delTag` removes from the in-memory tag list every entry equal to
the argument under case-insensitive comparison, duplicates included, and
leaves all other entries in their original order (the result is exactly
the filter keeping the non-matching tags). -/
theorem delTag_removes_case_insensitive (n : Note) (tag : String) :
    (n.delTag tag).tags =
      n.tags.filter (fun t => !(t.toLower == tag.toLower)) := by
  unfold Note.delTag
  dsimp only
  exact foldl_remove_filter (fun t => t.toLower == tag.toLower) n.tags

/-- C9: the two creation paths of `Note.__init__` are mutually exclusive:
supplying both a model and a (truthy) id is rejected by the assertion;
supplying only an id runs exactly the load path; supplying only a model
runs exactly the fresh-creation path (minting id/guid, empty fields and
tags, flags 0). -/
theorem init_paths_exclusive (d : Deck) :
    (∀ (m : Model) (i : Nat), i ≠ 0 →
       Note.init d (some m) (some i) = .error .assertionError) ∧
    (∀ i : Nat, i ≠ 0 → Note.init d none (some i) = Note.load d i) ∧
    (∀ m : Model, Note.init d (some m) none = .ok
       { id := d.nextId, guid := d.nextGuid, mid := m.id, gid := m.gid,
         mod := 0, usn := 0, tags := [],
         fields := List.replicate m.flds.length "", flags := 0,
         data := "", model := m, newlyAdded := false }) := by
  refine ⟨?_, ?_, ?_⟩
  · intro m i hi
    unfold Note.init
    simp [idTruthy, hi]
  · intro i hi
    unfold Note.init
    simp [idTruthy, hi]
  · intro m
    unfold Note.init
    simp [idTruthy]

/-- Witness for C9 at a concrete deck, model and id. -/
theorem init_paths_exclusive_witness :
    Note.init baseDeck (some modelBasic) (some 9) =
      .error .assertionError ∧
    Note.init baseDeck none (some 9) = Note.load baseDeck 9 ∧
    Note.init baseDeck (some modelBasic) none = .ok
      { id := baseDeck.nextId, guid := baseDeck.nextGuid,
        mid := modelBasic.id, gid := modelBasic.gid,
        mod := 0, usn := 0, tags := [],
        fields := List.replicate modelBasic.flds.length "", flags := 0,
        data := "", model := modelBasic, newlyAdded := false } := by
  have h := init_paths_exclusive baseDeck
  exact ⟨h.1 modelBasic 9 (by decide), h.2.1 9 (by decide),
    h.2.2 modelBasic⟩

/-- C10: a falsy (zero) modification-time override makes `flush` stamp
the current time; a truthy override is used verbatim; the update
sequence number is refreshed from the container on every flush. -/
theorem flush_mod_usn_stamp (d : Deck) (n : Note) (mod : Nat) (d' : Deck)
    (n' : Note) (hf : Note.flush d n mod = .ok (d', n')) :
    n'.mod = (if mod = 0 then d.time else mod) ∧
    n'.usn = d.usnCounter := by
  obtain ⟨n1, hpre, hd, hn⟩ := flush_ok_elim d n mod d' n' hf
  subst hn
  rw [flushWrite_snd]
  refine ⟨?_, rfl⟩
  dsimp only
  by_cases h0 : mod = 0 <;> simp [h0]

/-- Witness for C10: flushing `noteBasic` with the falsy override 0
stamps the deck clock and the deck's usn counter. -/
theorem flush_mod_usn_stamp_witness :
    (flushWrite baseDeck noteBasic 0).2.mod = baseDeck.time ∧
    (flushWrite baseDeck noteBasic 0).2.usn = baseDeck.usnCounter := by
  have h := flush_mod_usn_stamp baseDeck noteBasic 0
    (flushWrite baseDeck noteBasic 0).1
    (flushWrite baseDeck noteBasic 0).2 rfl
  simpa using h

/-- C6: loading an id with no record fails with `NotFound`; loading an
existing id reconstructs all persisted attributes, re-splitting the
stored field blob and re-deriving the tag list via the tag service. -/
theorem load_spec (d : Deck) (id : Nat) :
    ((∀ r ∈ d.notes, r.id ≠ id) → Note.load d id = .error .notFound) ∧
    (∀ r, d.notes.find? (fun r0 => r0.id == id) = some r →
      ∀ m, d.modelsGet r.mid = some m →
        Note.load d id = .ok
          { id := id, guid := r.guid, mid := r.mid, gid := r.gid,
            mod := r.mod, usn := r.usn, tags := d.tagSplit r.tags,
            fields := splitFields r.flds, flags := r.flags,
            data := r.data, model := m, newlyAdded := false }) := by
  constructor
  · intro h
    unfold Note.load
    have hnone : d.notes.find? (fun r => r.id == id) = none := by
      rw [List.find?_eq_none]
      intro x hx
      simpa using h x hx
    rw [hnone]
  · intro r hr m hm
    unfold Note.load
    rw [hr]
    dsimp only
    rw [hm]

/-- Witness for C6: in `deckDup` there is no record at id 99, and the
record at id 7 is reconstructed in full. -/
theorem load_spec_witness :
    Note.load deckDup 99 = .error .notFound ∧
    Note.load deckDup 7 = .ok
      { id := 7, guid := recOther.guid, mid := recOther.mid,
        gid := recOther.gid, mod := recOther.mod, usn := recOther.usn,
        tags := deckDup.tagSplit recOther.tags,
        fields := splitFields recOther.flds, flags := recOther.flags,
        data := recOther.data, model := modelBasic,
        newlyAdded := false } :=
  ⟨(load_spec deckDup 99).1 (by decide),
   (load_spec deckDup 7).2 recOther rfl modelBasic rfl⟩

/-- C7: field access by name fails with `UnknownField` on a name not
bound by the template set; on a bound name it reads/writes exactly the
field at that name's positional slot, leaving all other slots
unchanged. -/
theorem field_access_spec (n : Note) (key : String) :
    (fmapLookup (fieldMap n.model) key = none →
       n.getItem key = .error .unknownField ∧
       ∀ v, n.setItem key v = .error .unknownField) ∧
    (∀ ordn conf, fmapLookup (fieldMap n.model) key = some (ordn, conf) →
       n.getItem key = .ok (n.fields.getD ordn "") ∧
       ∀ v, n.setItem key v =
           .ok { n with fields := n.fields.set ordn v } ∧
         ∀ j, j ≠ ordn →
           (n.fields.set ordn v).getD j "" = n.fields.getD j "") := by
  constructor
  · intro h
    unfold Note.getItem Note.setItem Note.fieldOrd
    rw [h]
    exact ⟨rfl, fun v => rfl⟩
  · intro ordn conf h
    unfold Note.getItem Note.setItem Note.fieldOrd
    rw [h]
    refine ⟨rfl, fun v => ⟨rfl, fun j hj => ?_⟩⟩
    rw [List.getD_eq_getElem?_getD, List.getD_eq_getElem?_getD,
      List.getElem?_set_ne (fun e => hj e.symm)]

/-- Witness for C7: on `noteBasic`, the name "Nope" is unbound and
"Back" is bound at slot 1. -/
theorem field_access_spec_witness :
    noteBasic.getItem "Nope" = .error .unknownField ∧
    noteBasic.setItem "Nope" "z" = .error .unknownField ∧
    noteBasic.getItem "Back" = .ok (noteBasic.fields.getD 1 "") ∧
    noteBasic.setItem "Back" "z" =
      .ok { noteBasic with fields := noteBasic.fields.set 1 "z" } ∧
    (noteBasic.fields.set 1 "z").getD 0 "" = noteBasic.fields.getD 0 ""
    := by
  have h1 := (field_access_spec noteBasic "Nope").1 rfl
  have h2 := (field_access_spec noteBasic "Back").2 1
    ⟨"Back", false, false⟩ rfl
  exact ⟨h1.1, h1.2 "z", h2.1, (h2.2 "z").1, (h2.2 "z").2 0 (by decide)⟩

/-- C2: flushing a cloze note that has an existing card whose ordinal is
outside the currently referenced cloze ordinals fails with the spec's
`InvariantViolation` before any state is produced: the flush returns the
error and no updated deck (so the note row, uniqueness index and
`mod`/`usn` stamps are all untouched). -/
theorem cloze_stale_card_aborts_flush (d : Deck) (n : Note) (mod : Nat)
    (hc : n.model.cloze = true)
    (hbad : ∃ c ∈ d.cards, c.nid = n.id ∧
      c.ord ∉ d.findTemplates n.fields) :
    Note.flush d n mod = .error .invariantViolation := by
  have hpre : clozePreFlush d n = .error .invariantViolation := by
    unfold clozePreFlush
    dsimp only
    rw [if_pos]
    rw [List.any_eq_true]
    obtain ⟨c, hcm, hnid, hord⟩ := hbad
    refine ⟨c, hcm, ?_⟩
    simp [hnid, hord]
  unfold Note.flush
  rw [if_pos hc, hpre]

/-- Witness for C2: `deckStale` holds a card with ordinal 3 for note 5
while only ordinal 0 is referenced, so the flush aborts. -/
theorem cloze_stale_card_aborts_flush_witness :
    noteCloze.model.cloze = true ∧
    (∃ c ∈ deckStale.cards, c.nid = noteCloze.id ∧
       c.ord ∉ deckStale.findTemplates noteCloze.fields) ∧
    Note.flush deckStale noteCloze 0 = .error .invariantViolation :=
  ⟨rfl, by decide,
   cloze_stale_card_aborts_flush deckStale noteCloze 0 rfl (by decide)⟩

/-- Counterexample to C1 as stated: `noteCloze` is newly inserted in
`baseDeck` (it has no derived cards), its flush succeeds, and yet no
card-generation request is issued — the claim demands exactly one. -/
theorem cloze_generation_claim_counterexample :
    noteCloze.model.cloze = true ∧
    baseDeck.cards.filter (fun c => c.nid == noteCloze.id) = [] ∧
    (Note.flush baseDeck noteCloze 0).map
      (fun p => p.1.genCardsRequests) = .ok [] := by
  exact ⟨rfl, rfl, rfl⟩

/-- C1 (amended): for a cloze note, a successful flush issues exactly one
card-generation request if and only if the note already had derived
cards before the flush; a newly inserted cloze note (no prior cards)
triggers no generation request here. -/
theorem cloze_generation_iff_preexisting_cards (d : Deck) (n : Note)
    (mod : Nat) (d' : Deck) (n' : Note) (hc : n.model.cloze = true)
    (hf : Note.flush d n mod = .ok (d', n')) :
    d'.genCardsRequests =
      (if d.cards.any (fun c => c.nid == n.id) then
         d.genCardsRequests ++ [[n.id]]
       else d.genCardsRequests) := by
  obtain ⟨n1, hpre, hd, _⟩ := flush_ok_elim d n mod d' n' hf
  rw [if_pos hc] at hpre
  have hn1 := clozePreFlush_ok d n n1 hpre
  subst hd
  rw [flushWrite_fst_gen, hn1]
  dsimp only
  rw [hc]
  cases ha : d.cards.any (fun c => c.nid == n.id) <;> simp [ha]

/-- Witness for C1 (amended): flushing `noteCloze` in `deckWithCard`
(where a card for it already exists) issues exactly one generation
request. -/
theorem cloze_generation_iff_preexisting_cards_witness :
    (Note.flush deckWithCard noteCloze 0).map
      (fun p => p.1.genCardsRequests) = .ok [[5]] := by
  have h := cloze_generation_iff_preexisting_cards deckWithCard noteCloze
    0 (flushWrite deckWithCard { noteCloze with newlyAdded := false } 0).1
    (flushWrite deckWithCard { noteCloze with newlyAdded := false } 0).2
    rfl rfl
  rw [show Note.flush deckWithCard noteCloze 0 = .ok
      ((flushWrite deckWithCard { noteCloze with newlyAdded := false }
          0).1,
       (flushWrite deckWithCard { noteCloze with newlyAdded := false }
          0).2) from rfl]
  dsimp only [Except.map]
  rw [h]
  rfl

theorem checksumRows_nid (d : Deck) (n : Note) :
    ∀ row ∈ checksumRows d n, row.nid = n.id := by
  intro row hrow
  unfold checksumRows at hrow
  rw [List.mem_filterMap] at hrow
  obtain ⟨e, _, he⟩ := hrow
  dsimp only at he
  split at he
  · cases he
  · split at he
    · cases he
    · cases he
      rfl

theorem checksumRows_eq_map_filter (d : Deck) (n : Note) :
    checksumRows d n =
      ((fieldMap n.model).filter
          (fun e => e.2.2.uniq && (n.fields.getD e.2.1 "" != ""))).map
        (fun e => ⟨n.id, n.mid, d.csum (n.fields.getD e.2.1 "")⟩) := by
  unfold checksumRows
  induction fieldMap n.model with
  | nil => rfl
  | cons e l ih =>
    by_cases hu : e.2.2.uniq = true
    · by_cases hv : n.fields[e.2.1]?.getD "" = ""
      · simpa [List.filterMap_cons, List.filter_cons, hu, hv] using ih
      · simpa [List.filterMap_cons, List.filter_cons, hu, hv] using ih
    · simpa [List.filterMap_cons, List.filter_cons, hu] using ih

/-- C3: the uniqueness-index rebuild leaves, for the rebuilt note,
exactly one `(nid, mid, checksum)` row per field definition marked
unique whose current value is non-empty — no stale row for the note
survives — and leaves every other note's rows untouched. -/
theorem updateFieldChecksums_rebuild (d : Deck) (n : Note) :
    ((Note.updateFieldChecksums d n).nsums.filter
        (fun r => r.nid == n.id) =
      ((fieldMap n.model).filter
          (fun e => e.2.2.uniq && (n.fields.getD e.2.1 "" != ""))).map
        (fun e => ⟨n.id, n.mid, d.csum (n.fields.getD e.2.1 "")⟩)) ∧
    ((Note.updateFieldChecksums d n).nsums.filter
        (fun r => r.nid != n.id) =
      d.nsums.filter (fun r => r.nid != n.id)) := by
  constructor
  · unfold Note.updateFieldChecksums
    dsimp only
    rw [List.filter_append]
    rw [show (d.nsums.filter (fun r => r.nid != n.id)).filter
        (fun r => r.nid == n.id) = [] by
      rw [List.filter_eq_nil_iff]
      intro a ha
      have := List.of_mem_filter ha
      simp only [bne_iff_ne, ne_eq] at this
      simp [this]]
    rw [show (checksumRows d n).filter (fun r => r.nid == n.id) =
        checksumRows d n by
      rw [List.filter_eq_self]
      intro a ha
      simp [checksumRows_nid d n a ha]]
    rw [List.nil_append]
    exact checksumRows_eq_map_filter d n
  · unfold Note.updateFieldChecksums
    dsimp only
    rw [List.filter_append]
    rw [show (checksumRows d n).filter (fun r => r.nid != n.id) = [] by
      rw [List.filter_eq_nil_iff]
      intro a ha
      simp [checksumRows_nid d n a ha]]
    rw [List.append_nil, List.filter_filter]
    simp

theorem fmapAux_length (i : Nat) (fs : List FieldConf) :
    (fmapAux i fs).length = fs.length := by
  induction fs generalizing i with
  | nil => rfl
  | cons f fs ih => simp [fmapAux, ih]

theorem fmapAux_getElem (i j : Nat) (fs : List FieldConf)
    (hj : j < fs.length) :
    (fmapAux i fs)[j]? =
      some ((fs.getD j ⟨"", false, false⟩).name, i + j,
        fs.getD j ⟨"", false, false⟩) := by
  induction fs generalizing i j with
  | nil => cases hj
  | cons f fs ih =>
    cases j with
    | zero => simp [fmapAux]
    | succ j =>
      rw [show fmapAux i (f :: fs) = (f.name, i, f) :: fmapAux (i + 1) fs
        from rfl]
      rw [List.getElem?_cons_succ, ih (i + 1) j (Nat.lt_of_succ_lt_succ hj)]
      rw [show (f :: fs).getD (j + 1) ⟨"", false, false⟩ =
        fs.getD j ⟨"", false, false⟩ from rfl]
      rw [show i + 1 + j = i + (j + 1) by omega]

theorem fmapAux_le (i : Nat) (fs : List FieldConf) :
    ∀ e ∈ fmapAux i fs, i ≤ e.2.1 := by
  induction fs generalizing i with
  | nil => intro e he; cases he
  | cons f fs ih =>
    intro e he
    rw [show fmapAux i (f :: fs) = (f.name, i, f) :: fmapAux (i + 1) fs
      from rfl] at he
    rcases List.mem_cons.mp he with he | he
    · rw [he]
    · exact Nat.le_of_succ_le (ih (i + 1) e he)

theorem fmapAux_pairwise (i : Nat) (fs : List FieldConf) :
    (fmapAux i fs).Pairwise (fun a b => a.2.1 ≤ b.2.1) := by
  induction fs generalizing i with
  | nil => exact List.Pairwise.nil
  | cons f fs ih =>
    rw [show fmapAux i (f :: fs) = (f.name, i, f) :: fmapAux (i + 1) fs
      from rfl]
    refine List.Pairwise.cons ?_ (ih (i + 1))
    intro b hb
    exact Nat.le_of_succ_le (fmapAux_le (i + 1) fs b hb)

theorem insertByOrd_le (x : Nat × Option String)
    (l : List (Nat × Option String)) (h : ∀ y ∈ l, x.1 ≤ y.1) :
    insertByOrd x l = x :: l := by
  cases l with
  | nil => rfl
  | cons y ys =>
    unfold insertByOrd
    rw [if_pos (h y (List.mem_cons_self y ys))]

theorem sortByOrd_sorted_id (l : List (Nat × Option String))
    (h : l.Pairwise (fun a b => a.1 ≤ b.1)) : sortByOrd l = l := by
  induction l with
  | nil => rfl
  | cons a l ih =>
    rcases List.pairwise_cons.mp h with ⟨h1, h2⟩
    show insertByOrd a (sortByOrd l) = a :: l
    rw [ih h2]
    exact insertByOrd_le a l h1

/-- C4: `problems` returns one entry per field definition, ordered by
field ordinal; at each position a uniqueness conflict ("unique") takes
precedence over a required-but-empty condition ("required"), and a field
with neither problem reports none. -/
theorem problems_ordered_precedence (d : Deck) (n : Note) (i : Nat)
    (hi : i < n.model.flds.length) :
    (Note.problems d n).length = n.model.flds.length ∧
    (Note.problems d n).getD i none =
      (if fieldUniqueAt d n i (n.model.flds.getD i ⟨"", false, false⟩)
       then
         (if fieldCompleteAt n i (n.model.flds.getD i ⟨"", false, false⟩)
          then none else some "required")
       else some "unique") := by
  have hpw : ((fieldMap n.model).map (fun e =>
      (e.2.1,
        if !(fieldUniqueAt d n e.2.1 e.2.2) then some "unique"
        else if !(fieldCompleteAt n e.2.1 e.2.2) then some "required"
        else none))).Pairwise (fun a b => a.1 ≤ b.1) := by
    rw [List.pairwise_map]
    exact fmapAux_pairwise 0 n.model.flds
  simp only [Note.problems]
  rw [sortByOrd_sorted_id _ hpw]
  constructor
  · rw [List.length_map, List.length_map]
    exact fmapAux_length 0 n.model.flds
  · have hlt : i < (fieldMap n.model).length := by
      rw [show (fieldMap n.model).length = n.model.flds.length from
        fmapAux_length 0 n.model.flds]
      exact hi
    rw [List.getD_eq_getElem?_getD, List.getElem?_map, List.getElem?_map]
    rw [show (fieldMap n.model)[i]? =
      some ((n.model.flds.getD i ⟨"", false, false⟩).name, 0 + i,
        n.model.flds.getD i ⟨"", false, false⟩) from
      fmapAux_getElem 0 i n.model.flds hi]
    simp only [Option.map_some', Option.getD_some]
    rw [Nat.zero_add]
    cases hu : fieldUniqueAt d n i (n.model.flds.getD i ⟨"", false, false⟩)
      <;> cases hcmp : fieldCompleteAt n i
        (n.model.flds.getD i ⟨"", false, false⟩)
      <;> simp [hu, hcmp]

/-- Witness for C4 at `deckDup`/`noteBasic`, field position 0 (whose
value "hello" collides with the persisted note 7). -/
theorem problems_ordered_precedence_witness :
    (Note.problems deckDup noteBasic).length =
      noteBasic.model.flds.length ∧
    (Note.problems deckDup noteBasic).getD 0 none =
      (if fieldUniqueAt deckDup noteBasic 0
          (noteBasic.model.flds.getD 0 ⟨"", false, false⟩)
       then
         (if fieldCompleteAt noteBasic 0
             (noteBasic.model.flds.getD 0 ⟨"", false, false⟩)
          then none else some "required")
       else some "unique") :=
  problems_ordered_precedence deckDup noteBasic 0 (by decide)

theorem fieldUniqueAt_false_iff (d : Deck) (n : Note) (ordn : Nat)
    (conf : FieldConf) (hu : conf.uniq = true)
    (hv : n.fields.getD ordn "" ≠ "") :
    fieldUniqueAt d n ordn conf = false ↔
      ∃ nr ∈ d.notes,
        (∃ row ∈ d.nsums, row.nid = nr.id ∧ row.nid ≠ n.id ∧
           row.mid = n.mid ∧
           row.csum = d.csum (n.fields.getD ordn "")) ∧
        (splitFields nr.flds).getD ordn "" = n.fields.getD ordn "" := by
  unfold fieldUniqueAt
  rw [if_neg (show ¬((!conf.uniq) = true) by simp [hu])]
  dsimp only
  rw [if_neg (show ¬((n.fields.getD ordn "" == "") = true) by
    simpa using hv)]
  by_cases hni :
      (((d.nsums.filter (fun r =>
          r.csum == d.csum (n.fields.getD ordn "") && r.nid != n.id &&
            r.mid == n.mid)).map (fun r => r.nid)).isEmpty = true)
  · rw [if_pos hni]
    rw [List.isEmpty_iff, List.map_eq_nil_iff] at hni
    constructor
    · intro hE
      exact absurd hE (by simp)
    · rintro ⟨nr, _, ⟨row, hrow, h1, h2, h3, h4⟩, _⟩
      have hmem : row ∈ d.nsums.filter (fun r =>
          r.csum == d.csum (n.fields.getD ordn "") && r.nid != n.id &&
            r.mid == n.mid) :=
        List.mem_filter.mpr ⟨hrow, by simp [h2, h3, h4]⟩
      rw [hni] at hmem
      cases hmem
  · rw [if_neg hni]
    rw [Bool.not_eq_false']
    rw [List.any_eq_true]
    constructor
    · rintro ⟨nr, hmem, hp⟩
      rw [List.mem_filter] at hmem
      obtain ⟨hnr, hcont⟩ := hmem
      have hid := List.mem_of_elem_eq_true hcont
      rw [List.mem_map] at hid
      obtain ⟨row, hrowmem, hrowid⟩ := hid
      rw [List.mem_filter] at hrowmem
      obtain ⟨hrow, hq⟩ := hrowmem
      have hq2 : (row.csum = d.csum (n.fields.getD ordn "") ∧
          ¬row.nid = n.id) ∧ row.mid = n.mid := by
        simpa using hq
      exact ⟨nr, hnr, ⟨row, hrow, hrowid, hq2.1.2, hq2.2, hq2.1.1⟩,
        by rwa [beq_iff_eq] at hp⟩
    · rintro ⟨nr, hnr, ⟨row, hrow, h1, h2, h3, h4⟩, hval⟩
      refine ⟨nr, List.mem_filter.mpr ⟨hnr, ?_⟩, beq_iff_eq.mpr hval⟩
      refine List.elem_eq_true_of_mem ?_
      exact List.mem_map.mpr ⟨row,
        List.mem_filter.mpr ⟨hrow, by simp [h2, h3, h4]⟩, h1⟩

/-- C5: `fieldUnique(name)` on a bound field name returns false exactly
when the field is unique-constrained, its value is non-empty, and
another note — reached through a uniqueness-index row of the same
template set and a different note id — holds an exactly equal string at
that same field position.  A checksum match alone never yields false,
and an empty value never produces a conflict. -/
theorem fieldUnique_characterization (d : Deck) (n : Note)
    (name : String) (ordn : Nat) (conf : FieldConf)
    (h : fmapLookup (fieldMap n.model) name = some (ordn, conf)) :
    Note.fieldUnique d n name = .ok false ↔
      (conf.uniq = true ∧ n.fields.getD ordn "" ≠ "" ∧
       ∃ nr ∈ d.notes,
         (∃ row ∈ d.nsums, row.nid = nr.id ∧ row.nid ≠ n.id ∧
            row.mid = n.mid ∧
            row.csum = d.csum (n.fields.getD ordn "")) ∧
         (splitFields nr.flds).getD ordn "" = n.fields.getD ordn "") := by
  unfold Note.fieldUnique Note.fieldOrd
  rw [h]
  dsimp only [Except.map]
  rw [show ((Except.ok (fieldUniqueAt d n ordn conf) :
      Except NoteError Bool) = .ok false) ↔
      fieldUniqueAt d n ordn conf = false by
    constructor
    · intro he; injection he
    · intro hb; rw [hb]]
  by_cases hu : conf.uniq = true
  · by_cases hv : n.fields.getD ordn "" = ""
    · have hT : fieldUniqueAt d n ordn conf = true := by
        unfold fieldUniqueAt
        rw [if_neg (show ¬((!conf.uniq) = true) by simp [hu])]
        dsimp only
        rw [if_pos (beq_iff_eq.mpr hv)]
      rw [hT]
      have hv2 : n.fields[ordn]?.getD "" = "" := by
        rw [← List.getD_eq_getElem?_getD]; exact hv
      simp [hv2]
    · rw [fieldUniqueAt_false_iff d n ordn conf hu hv]
      have hv2 : ¬(n.fields[ordn]?.getD "" = "") := by
        rw [← List.getD_eq_getElem?_getD]; exact hv
      simp [hu, hv2]
  · have hu2 : conf.uniq = false := by
      cases hb : conf.uniq
      · rfl
      · exact absurd hb hu
    have hT : fieldUniqueAt d n ordn conf = true := by
      unfold fieldUniqueAt
      rw [if_pos (show (!conf.uniq) = true by rw [hu2]; rfl)]
    rw [hT]
    simp [hu]

/-- Witness for C5: in `deckDup` the persisted note 7 holds the exact
value "hello" in field 0 of the same template set, so `noteBasic`'s
"Front" field is reported non-unique. -/
theorem fieldUnique_characterization_witness :
    Note.fieldUnique deckDup noteBasic "Front" = .ok false := by
  have h := fieldUnique_characterization deckDup noteBasic "Front" 0
    ⟨"Front", true, true⟩ rfl
  exact h.mpr ⟨rfl, by decide, recOther, by decide,
    ⟨⟨7, 2, 5⟩, by decide, rfl, by decide, rfl, rfl⟩, by decide⟩

end Anki
